import Mathlib

/-!
Verification of the `getent` Ansible module (src/plugins/modules/getent.py).

The module resolves the `getent` binary, builds a command line from the
`database` and optional `key` parameters, defaults the split character to
":" for the colon-separated databases, runs the command, and dispatches on
the exit code: 0 parses stdout into a mapping, 1/3/other fail with fixed
messages, and 2 depends on the `fail_key` flag.

The embedding models Python string splitting (`str.split`, `str.splitlines`)
over character lists with structural recursion, the Python dict as an
insertion-ordered association list with last-wins overwrite, and the module
body as a function from the parameters and the process-boundary observations
(binary resolution, spawn result) to the terminal outcome.
-/

namespace Getent

/-- Python whitespace characters recognised by `str.split()` with no
separator argument. -/
def isPySpace (c : Char) : Bool :=
  c == ' ' || c == '\t' || c == '\n' || c == '\r' || c == '\x0b' || c == '\x0c'

/-- Whitespace splitting, Python `str.split()`: split on runs of whitespace,
producing no empty tokens.  `acc` holds the current token reversed. -/
def wsSplitAux : List Char → List Char → List (List Char)
  | [], acc => if acc = [] then [] else [acc.reverse]
  | c :: cs, acc =>
    if isPySpace c then
      if acc = [] then wsSplitAux cs [] else acc.reverse :: wsSplitAux cs []
    else wsSplitAux cs (c :: acc)

/-- Try to strip `sep` from the front of the second list. -/
def stripPrefixQ : List Char → List Char → Option (List Char)
  | [], cs => some cs
  | _ :: _, [] => Option.none
  | p :: ps, c :: cs => if c = p then stripPrefixQ ps cs else Option.none

/-- Separator splitting, Python `str.split(sep)` for a non-empty `sep`.
Empty tokens are kept.  The `Nat` argument is structural-recursion fuel;
since a non-empty `sep` consumes at least one input character per emitted
separator, fuel equal to the input length is always sufficient. -/
def sepSplitAux (sep : List Char) : Nat → List Char → List Char → List (List Char)
  | _, [], acc => [acc.reverse]
  | 0, cs, acc => [acc.reverse ++ cs]
  | fuel + 1, c :: cs, acc =>
    match stripPrefixQ sep (c :: cs) with
    | some rest => acc.reverse :: sepSplitAux sep fuel rest []
    | Option.none => sepSplitAux sep fuel cs (c :: acc)

/-- Python `line.split(split)` as used in the module: `split is None` means
whitespace splitting, a non-empty separator means separator splitting, and
the empty separator raises `ValueError` (modelled as `Option.none`,
an uncaught exception). -/
def pySplitQ (sep : Option String) (s : String) : Option (List String)
  :=
  match sep with
  | Option.none => some ((wsSplitAux s.toList []).map fun l => String.mk l)
  | some sp =>
    match sp.toList with
    | [] => Option.none
    | c :: cs =>
        some ((sepSplitAux (c :: cs) s.toList.length s.toList []).map fun l => String.mk l)

/-- Python `out.splitlines()` restricted to the `\n`, `\r` and `\r\n` line
boundaries: no trailing empty line is produced. -/
def splitlinesAux : List Char → List Char → List (List Char)
  | [], acc => if acc = [] then [] else [acc.reverse]
  | '\r' :: '\n' :: cs, acc => acc.reverse :: splitlinesAux cs []
  | '\r' :: cs, acc => acc.reverse :: splitlinesAux cs []
  | '\n' :: cs, acc => acc.reverse :: splitlinesAux cs []
  | c :: cs, acc => splitlinesAux cs (c :: acc)

/-- Python `out.splitlines()` on a `String`. -/
def splitlines (s : String) : List String :=
  (splitlinesAux s.toList []).map fun l => String.mk l

/-- The module's parameters after argument parsing:
`database` (required), optional `key`, optional `split`, and `fail_key`
(default `true`). -/
structure Params where
  database : String
  key : Option String
  split : Option String
  fail_key : Bool

/-- `colon = ['passwd', 'shadow', 'group', 'gshadow']` from the source. -/
def colon : List String := ["passwd", "shadow", "group", "gshadow"]

/-- `if split is None and database in colon: split = ':'` from the source. -/
def effectiveSplit (database : String) (split : Option String) : Option String :=
  if split = Option.none ∧ database ∈ colon then some ":" else split

/-- The value of `results[dbtree]`: an insertion-ordered Python dict from
keys (`None` is a possible key on the code-2 path) to either a list of
fields or `None`. -/
abbrev DbMap := List (Option String × Option (List String))

/-- Python dict assignment `d[k] = v`: if the key is present its value is
replaced in place, otherwise the pair is appended at the end. -/
def dictInsert (m : DbMap) (k : Option String) (v : Option (List String)) : DbMap :=
  if m.any (fun p => decide (p.1 = k)) then
    m.map (fun p => if p.1 = k then (k, v) else p)
  else m ++ [(k, v)]

/-- Python dict lookup `d[k]` returning `Option.none` when the key is absent. -/
def dictLookup (m : DbMap) (k : Option String) : Option (Option (List String)) :=
  match m.find? (fun p => decide (p.1 = k)) with
  | some p => some p.2
  | Option.none => Option.none

/-- One iteration of the `rc == 0` parsing loop:
`record = line.split(split); results[dbtree][record[0]] = record[1:]`.
`Option.none` marks an uncaught exception (`ValueError` from an empty
separator, or `IndexError` from `record[0]` on an empty record). -/
def parseLine (sp : Option String) (m : DbMap) (line : String) : Option DbMap :=
  match pySplitQ sp line with
  | Option.none => Option.none
  | some [] => Option.none
  | some (k :: vs) => some (dictInsert m (some k) (some vs))

/-- The whole `rc == 0` parsing loop over `out.splitlines()`, starting from
the empty dict `results[dbtree] = {}`. -/
def parseLines (sp : Option String) (out : String) : Option DbMap :=
  (splitlines out).foldlM (parseLine sp) ([] : DbMap)

/-- The shape of a successful `module.exit_json` call: `rc == 0` passes the
`results` dict itself (`collection: True` plus the `getent_<database>`
tree); the `rc == 2` non-fatal path wraps it as `results=results, msg=msg`. -/
inductive Payload where
  | direct (collection : Bool) (dbtree : String) (map : DbMap)
  | wrapped (collection : Bool) (dbtree : String) (map : DbMap) (msg : String)
deriving DecidableEq

/-- The terminal behaviour of one module invocation. -/
inductive Outcome where
  | exitJson (payload : Payload)
  | failJson (msg : String) (exception : Option String)
  | uncaught (desc : String)
deriving DecidableEq

/-- The observed behaviour of `module.run_command(cmd)`: either an exit
code with captured stdout and stderr, or a raised exception with its
stringified value and formatted traceback. -/
inductive SpawnResult where
  | ok (rc : Int) (out : String) (err : String)
  | exn (e : String) (tb : String)

/-- The outcome together with whether a child process was spawned. -/
structure Exec where
  outcome : Outcome
  spawned : Bool
deriving DecidableEq

/-- Modelled from the spec: `module.get_bin_path('getent', True)` lives in
the surrounding framework, not in this repository's source.  Per the spec it
must "resolve the `getent` executable from the environment's search path;
fail with `ExecutableNotFound` if absent", terminating the module before
any process is spawned. -/
def executableNotFoundMsg : String := "Failed to find required executable getent"

/-- The module body after argument parsing, as a function of the parameters,
the resolved binary path (`Option.none` when `getent` is absent from the
search path) and the spawn observation. -/
def runGetent (p : Params) (getentBin : Option String) (spawn : SpawnResult) : Exec :=
  match getentBin with
  | Option.none => ⟨.failJson executableNotFoundMsg Option.none, false⟩
  | some _bin =>
    let sp := effectiveSplit p.database p.split
    let dbtree := "getent_" ++ p.database
    match spawn with
    | .exn e tb => ⟨.failJson e (some tb), true⟩
    | .ok rc out _err =>
      if rc = 0 then
        match parseLines sp out with
        | some m => ⟨.exitJson (.direct true dbtree m), true⟩
        | Option.none => ⟨.uncaught "unhandled exception in parsing loop", true⟩
      else if rc = 1 then
        ⟨.failJson "Missing arguments, or database unknown." Option.none, true⟩
      else if rc = 2 then
        if p.fail_key then
          ⟨.failJson "One or more supplied key could not be found in the database."
            Option.none, true⟩
        else
          ⟨.exitJson (.wrapped true dbtree (dictInsert [] p.key Option.none)
            "One or more supplied key could not be found in the database."), true⟩
      else if rc = 3 then
        ⟨.failJson "Enumeration not supported on this database." Option.none, true⟩
      else
        ⟨.failJson "Unexpected failure!" Option.none, true⟩

/-- The value fields contributed by one stdout line for a given record key
`k`: `some vs` when the line's first field equals `k`, `Option.none`
otherwise. -/
def lineValue (sp : Option String) (k : String) (l : String) : Option (List String) :=
  match pySplitQ sp l with
  | some (k1 :: vs) => if k1 = k then some vs else Option.none
  | _ => Option.none

/-- The value fields of the last line (in stdout order) whose first field
equals `k`: later lines take precedence. -/
def lastRecord (sp : Option String) (lines : List String) (k : String) : Option (List String) :=
  match lines with
  | [] => Option.none
  | a :: rest =>
    match lastRecord sp rest k with
    | some vs => some vs
    | Option.none => lineValue sp k a

lemma find_map_insert (m : DbMap) (k : Option String) (v : Option (List String))
    (h : m.any (fun p => decide (p.1 = k)) = true) :
    (m.map (fun p => if p.1 = k then (k, v) else p)).find? (fun p => decide (p.1 = k))
      = some (k, v) := by
  induction m with
  | nil => simp at h
  | cons p rest ih =>
    by_cases hp : p.1 = k
    · simp [hp, List.find?]
    · have h2 : rest.any (fun p => decide (p.1 = k)) = true := by
        simpa [List.any_cons, hp] using h
      simpa [hp, List.find?] using ih h2

lemma find_append_insert (m : DbMap) (k : Option String) (v : Option (List String))
    (h : ∀ q ∈ m, ¬ q.1 = k) :
    (m ++ [(k, v)]).find? (fun p => decide (p.1 = k)) = some (k, v) := by
  induction m with
  | nil => simp [List.find?]
  | cons p rest ih =>
    have hp : ¬ p.1 = k := h p (List.mem_cons_self p rest)
    simpa [hp, List.find?] using ih fun q hq => h q (List.mem_cons_of_mem p hq)

lemma dictLookup_dictInsert_self (m : DbMap) (k : Option String)
    (v : Option (List String)) :
    dictLookup (dictInsert m k v) k = some v := by
  unfold dictInsert
  by_cases h : m.any (fun p => decide (p.1 = k)) = true
  · simp [h, dictLookup, find_map_insert m k v h]
  · have h2 : ∀ q ∈ m, ¬ q.1 = k := by
      have := List.any_eq_false.mp (Bool.eq_false_iff.mpr h)
      intro q hq
      simpa using this q hq
    simp [h, dictLookup, find_append_insert m k v h2]

lemma find_map_insert_ne (m : DbMap) (k j : Option String) (v : Option (List String))
    (hjk : j ≠ k) :
    (m.map (fun p => if p.1 = k then (k, v) else p)).find? (fun p => decide (p.1 = j))
      = m.find? (fun p => decide (p.1 = j)) := by
  induction m with
  | nil => rfl
  | cons p rest ih =>
    rw [List.map_cons]
    by_cases hp : p.1 = k
    · have hpj : ¬ p.1 = j := by
        intro hh
        exact hjk (by rw [← hh, hp])
      rw [if_pos hp, List.find?_cons_of_neg _ (by simp; exact fun hh => hjk hh.symm),
        List.find?_cons_of_neg _ (by simp [hpj])]
      exact ih
    · rw [if_neg hp]
      by_cases hj : p.1 = j
      · rw [List.find?_cons_of_pos _ (by simp [hj]), List.find?_cons_of_pos _ (by simp [hj])]
      · rw [List.find?_cons_of_neg _ (by simp [hj]), List.find?_cons_of_neg _ (by simp [hj])]
        exact ih

lemma find_append_single_ne (m : DbMap) (k j : Option String) (v : Option (List String))
    (hjk : j ≠ k) :
    (m ++ [(k, v)]).find? (fun p => decide (p.1 = j))
      = m.find? (fun p => decide (p.1 = j)) := by
  induction m with
  | nil =>
    have hkj : ¬ (k = j) := fun hh => hjk hh.symm
    simp [hkj, List.find?]
  | cons p rest ih =>
    by_cases hj : p.1 = j
    · simp [hj, List.find?]
    · simpa [hj, List.find?] using ih

lemma dictLookup_dictInsert_ne (m : DbMap) (k j : Option String)
    (v : Option (List String)) (hjk : j ≠ k) :
    dictLookup (dictInsert m k v) j = dictLookup m j := by
  unfold dictInsert
  by_cases h : m.any (fun p => decide (p.1 = k)) = true
  · simp [h, dictLookup, find_map_insert_ne m k j v hjk]
  · simp [h, dictLookup, find_append_single_ne m k j v hjk]

lemma map_fst_overwrite (m : DbMap) (k : Option String) (v : Option (List String)) :
    (m.map (fun p => if p.1 = k then (k, v) else p)).map Prod.fst = m.map Prod.fst := by
  induction m with
  | nil => rfl
  | cons p rest ih =>
    by_cases hp : p.1 = k
    · simp [hp, ih]
    · simp [hp, ih]

lemma dictInsert_fst (m : DbMap) (k : Option String) (v : Option (List String)) :
    (dictInsert m k v).map Prod.fst
      = if m.any (fun p => decide (p.1 = k)) then m.map Prod.fst
        else m.map Prod.fst ++ [k] := by
  unfold dictInsert
  by_cases h : m.any (fun p => decide (p.1 = k)) = true
  · rw [if_pos h, if_pos h, map_fst_overwrite]
  · rw [if_neg h, if_neg h, List.map_append]
    rfl

lemma dictInsert_nodup (m : DbMap) (k : Option String) (v : Option (List String))
    (h : (m.map Prod.fst).Nodup) : ((dictInsert m k v).map Prod.fst).Nodup := by
  rw [dictInsert_fst]
  by_cases hc : m.any (fun p => decide (p.1 = k)) = true
  · simpa [hc] using h
  · have hk : k ∉ m.map Prod.fst := by
      intro hmem
      rcases List.mem_map.mp hmem with ⟨q, hq, hq1⟩
      exact hc (List.any_eq_true.mpr ⟨q, hq, by simp [hq1]⟩)
    simp [hc, List.nodup_append, h, hk]

lemma countP_eq_one_of_lookup (m : DbMap) (x : Option String) (v : Option (List String))
    (hn : (m.map Prod.fst).Nodup) (hv : dictLookup m x = some v) :
    m.countP (fun p => decide (p.1 = x)) = 1 := by
  induction m with
  | nil => simp [dictLookup, List.find?] at hv
  | cons p rest ih =>
    have hn2 := List.nodup_cons.mp (show (p.1 :: rest.map Prod.fst).Nodup from hn)
    by_cases hp : p.1 = x
    · have h0 : rest.countP (fun q => decide (q.1 = x)) = 0 := by
        refine List.countP_eq_zero.mpr ?_
        intro q hq
        simp only [decide_eq_true_eq]
        intro hq1
        have hq2 : q.1 = p.1 := by rw [hq1, hp]
        exact hn2.1 (List.mem_map.mpr ⟨q, hq, hq2⟩)
      simp [List.countP_cons, hp, h0]
    · have hv2 : dictLookup rest x = some v := by
        unfold dictLookup at hv ⊢
        rwa [List.find?_cons_of_neg _ (by simp [hp])] at hv
      simpa [List.countP_cons, hp] using ih hn2.2 hv2

lemma foldl_parse (sp : Option String) :
    ∀ (lines : List String) (m0 m : DbMap),
      lines.foldlM (parseLine sp) m0 = some m →
      ((m0.map Prod.fst).Nodup → (m.map Prod.fst).Nodup)
      ∧ ∀ k : String, dictLookup m (some k)
          = match lastRecord sp lines k with
            | some vs => some (some vs)
            | Option.none => dictLookup m0 (some k) := by
  intro lines
  induction lines with
  | nil =>
    intro m0 m h
    simp only [List.foldlM_nil, pure, Option.some.injEq] at h
    subst h
    exact ⟨id, fun k => by simp [lastRecord]⟩
  | cons a rest ih =>
    intro m0 m h
    rw [List.foldlM_cons] at h
    rcases Option.bind_eq_some.mp h with ⟨m1, h1, h2⟩
    rcases hsp : pySplitQ sp a with _ | record
    · simp [parseLine, hsp] at h1
    · rcases record with _ | ⟨k1, vs⟩
      · simp [parseLine, hsp] at h1
      · have h1' : dictInsert m0 (some k1) (some vs) = m1 := by
          simpa [parseLine, hsp] using h1
        obtain ⟨ihN, ihL⟩ := ih m1 m h2
        refine ⟨fun hn => ihN (h1' ▸ dictInsert_nodup m0 (some k1) (some vs) hn), ?_⟩
        intro k
        rcases hlr : lastRecord sp rest k with _ | vs2
        · rw [ihL k, hlr]
          by_cases hk : k1 = k
          · subst hk
            simp [lastRecord, hlr, lineValue, hsp, ← h1',
              dictLookup_dictInsert_self]
          · have hne : (some k : Option String) ≠ some k1 := by
              intro hh
              exact hk (Option.some.inj hh).symm
            simp [lastRecord, hlr, lineValue, hsp, hk, ← h1',
              dictLookup_dictInsert_ne m0 (some k1) (some k) (some vs) hne]
        · rw [ihL k, hlr]
          simp [lastRecord, hlr]

/-- C1: whenever the getent process exits with code 2 and `fail_key` is
false, the module never fails: it exits successfully with a `results`
wrapper mapping the queried key to a null value together with a non-empty
`msg` string. -/
theorem c1_rc2_fail_key_false_succeeds (p : Params) (b out err : String)
    (hfk : p.fail_key = false) :
    ∃ (m : DbMap) (msg : String),
      runGetent p (some b) (.ok 2 out err)
        = ⟨.exitJson (.wrapped true ("getent_" ++ p.database) m msg), true⟩
      ∧ dictLookup m p.key = some Option.none ∧ msg ≠ "" := by
  refine ⟨[(p.key, Option.none)],
    "One or more supplied key could not be found in the database.", ?_, ?_, ?_⟩
  · simp [runGetent, hfk, dictInsert]
  · simp [dictLookup, List.find?]
  · simp

/-- Witness for C1 at `database=services, key=http, fail_key=false`. -/
theorem c1_witness :
    (⟨"services", some "http", Option.none, false⟩ : Params).fail_key = false
    ∧ ∃ (m : DbMap) (msg : String),
        runGetent ⟨"services", some "http", Option.none, false⟩ (some "getent")
          (.ok 2 "" "")
          = ⟨.exitJson (.wrapped true ("getent_" ++ "services") m msg), true⟩
        ∧ dictLookup m (some "http") = some Option.none ∧ msg ≠ "" :=
  ⟨rfl, c1_rc2_fail_key_false_succeeds ⟨"services", some "http", Option.none, false⟩
    "getent" "" "" rfl⟩

/-- C2: whenever the getent process exits with code 2 and `fail_key` is
true (the default), the module fails with exactly the message "One or more
supplied key could not be found in the database.". -/
theorem c2_rc2_fail_key_true_fails (p : Params) (b out err : String)
    (hfk : p.fail_key = true) :
    runGetent p (some b) (.ok 2 out err)
      = ⟨.failJson "One or more supplied key could not be found in the database."
          Option.none, true⟩ := by
  simp [runGetent, hfk]

/-- Witness for C2 at a concrete invocation. -/
theorem c2_witness :
    runGetent ⟨"passwd", some "nosuch", Option.none, true⟩ (some "getent") (.ok 2 "" "")
      = ⟨.failJson "One or more supplied key could not be found in the database."
          Option.none, true⟩ :=
  c2_rc2_fail_key_true_fails ⟨"passwd", some "nosuch", Option.none, true⟩
    "getent" "" "" rfl

/-- C3: exit code 1 fails with exactly "Missing arguments, or database
unknown.", exit code 3 with exactly "Enumeration not supported on this
database.", and any exit code other than 0, 1, 2, 3 with exactly
"Unexpected failure!"; all three hold for every value of `fail_key`. -/
theorem c3_fixed_failure_messages (p : Params) (b out err : String) :
    (runGetent p (some b) (.ok 1 out err)
      = ⟨.failJson "Missing arguments, or database unknown." Option.none, true⟩)
    ∧ (runGetent p (some b) (.ok 3 out err)
      = ⟨.failJson "Enumeration not supported on this database." Option.none, true⟩)
    ∧ ∀ rc : Int, rc ≠ 0 → rc ≠ 1 → rc ≠ 2 → rc ≠ 3 →
        runGetent p (some b) (.ok rc out err)
          = ⟨.failJson "Unexpected failure!" Option.none, true⟩ := by
  refine ⟨by simp [runGetent], by simp [runGetent], ?_⟩
  intro rc h0 h1 h2 h3
  simp [runGetent, h0, h1, h2, h3]

/-- Witness for C3 at exit code 5. -/
theorem c3_witness :
    runGetent ⟨"passwd", Option.none, Option.none, true⟩ (some "getent") (.ok 5 "" "")
      = ⟨.failJson "Unexpected failure!" Option.none, true⟩ :=
  (c3_fixed_failure_messages ⟨"passwd", Option.none, Option.none, true⟩ "getent" "" "").2.2
    5 (by decide) (by decide) (by decide) (by decide)

/-- C4: with no explicit split character the effective separator is ":"
exactly for the databases passwd, shadow, group and gshadow; for any other
database the line is tokenized by the default whitespace rule. -/
theorem c4_default_separator (db : String) :
    (effectiveSplit db Option.none = some ":" ↔ db ∈ colon)
    ∧ (db ∉ colon →
        effectiveSplit db Option.none = Option.none
        ∧ ∀ l : String, pySplitQ (effectiveSplit db Option.none) l
            = some ((wsSplitAux l.toList []).map fun cs => String.mk cs)) := by
  by_cases h : db ∈ colon
  · constructor
    · simp [effectiveSplit, h]
    · intro hn
      exact absurd h hn
  · constructor
    · simp [effectiveSplit, h]
    · intro _
      exact ⟨by simp [effectiveSplit, h], fun l => by simp [effectiveSplit, h, pySplitQ]⟩

/-- Witness for C4 at `database=hosts`. -/
theorem c4_witness :
    "hosts" ∉ colon
    ∧ effectiveSplit "hosts" Option.none = Option.none
    ∧ pySplitQ (effectiveSplit "hosts" Option.none) "127.0.0.1 localhost"
        = some ((wsSplitAux "127.0.0.1 localhost".toList []).map fun cs => String.mk cs) :=
  ⟨by decide, ((c4_default_separator "hosts").2 (by decide)).1,
    ((c4_default_separator "hosts").2 (by decide)).2 "127.0.0.1 localhost"⟩

/-- C5: for exit code 0 each stdout line is split on the split character,
the first field becoming the record key and the remaining fields its value
sequence in order; in particular stdout "root:x:0:0:root:/root:/bin/bash\n"
with the resolved split ":" yields the mapping
root -> [x, 0, 0, root, /root, /bin/bash], the trailing blank line being
ignored. -/
theorem c5_parsing_lossless :
    (∀ (sp : Option String) (m : DbMap) (l k : String) (vs : List String),
        pySplitQ sp l = some (k :: vs) →
        parseLine sp m l = some (dictInsert m (some k) (some vs)))
    ∧ runGetent ⟨"passwd", Option.none, Option.none, true⟩ (some "getent")
        (.ok 0 "root:x:0:0:root:/root:/bin/bash\n" "")
        = ⟨.exitJson (.direct true ("getent_" ++ "passwd")
            [(some "root", some ["x", "0", "0", "root", "/root", "/bin/bash"])]), true⟩ := by
  constructor
  · intro sp m l k vs h
    simp [parseLine, h]
  · decide

/-- Witness for C5's per-line splitting property at a concrete line. -/
theorem c5_witness :
    parseLine (some ":") [] "a:b:c" = some (dictInsert [] (some "a") (some ["b", "c"])) :=
  c5_parsing_lossless.1 (some ":") [] "a:b:c" "a" ["b", "c"] (by decide)

/-- C6: when the getent executable cannot be resolved from the search
path, the module fails with an executable-not-found message and no child
process is spawned. -/
theorem c6_missing_executable (p : Params) (spawn : SpawnResult) :
    runGetent p Option.none spawn
      = ⟨.failJson executableNotFoundMsg Option.none, false⟩ := rfl

/-- C7: on exit code 0 the module returns an object with a
`collection: true` marker and a `getent_<database>` field holding the
parsed mapping; on exit code 2 with `fail_key` false it returns a
`results` wrapper containing that same structure plus a `msg` field. -/
theorem c7_result_shape (p : Params) (b out err : String) (m : DbMap)
    (h0 : parseLines (effectiveSplit p.database p.split) out = some m)
    (hfk : p.fail_key = false) :
    runGetent p (some b) (.ok 0 out err)
      = ⟨.exitJson (.direct true ("getent_" ++ p.database) m), true⟩
    ∧ runGetent p (some b) (.ok 2 out err)
      = ⟨.exitJson (.wrapped true ("getent_" ++ p.database)
          (dictInsert [] p.key Option.none)
          "One or more supplied key could not be found in the database."), true⟩ := by
  constructor
  · simp [runGetent, h0]
  · simp [runGetent, hfk]

/-- Witness for C7 at a concrete invocation. -/
theorem c7_witness :
    runGetent ⟨"passwd", some "root", Option.none, false⟩ (some "getent")
      (.ok 0 "root:x:0\n" "")
      = ⟨.exitJson (.direct true ("getent_" ++ "passwd")
          [(some "root", some ["x", "0"])]), true⟩
    ∧ runGetent ⟨"passwd", some "root", Option.none, false⟩ (some "getent")
      (.ok 2 "root:x:0\n" "")
      = ⟨.exitJson (.wrapped true ("getent_" ++ "passwd")
          (dictInsert [] (some "root") Option.none)
          "One or more supplied key could not be found in the database."), true⟩ :=
  c7_result_shape ⟨"passwd", some "root", Option.none, false⟩ "getent" "root:x:0\n" ""
    [(some "root", some ["x", "0"])] (by decide) rfl

/-- C8: when spawning the child process raises, the module fails with the
stringified exception as its message and the formatted traceback as its
exception payload; no result set is returned. -/
theorem c8_spawn_failure (p : Params) (b e tb : String) :
    runGetent p (some b) (.exn e tb) = ⟨.failJson e (some tb), true⟩ := rfl

/-- C9: when a stdout line repeats the first field of an earlier line,
the resulting mapping holds exactly one entry for that key and its value
sequence comes from the last such line in stdout order. -/
theorem c9_last_occurrence_wins (sp : Option String) (out : String) (m : DbMap)
    (k : String) (vs : List String)
    (hm : parseLines sp out = some m)
    (hl : lastRecord sp (splitlines out) k = some vs) :
    m.countP (fun p => decide (p.1 = some k)) = 1
    ∧ dictLookup m (some k) = some (some vs) := by
  obtain ⟨hN, hL⟩ := foldl_parse sp (splitlines out) [] m hm
  have hlook : dictLookup m (some k) = some (some vs) := by
    rw [hL k, hl]
  exact ⟨countP_eq_one_of_lookup m (some k) (some vs) (hN (by simp)) hlook, hlook⟩

/-- Witness for C9 on stdout with a duplicated key. -/
theorem c9_witness :
    ([(some "a", some ["2"])] : DbMap).countP (fun p => decide (p.1 = some "a")) = 1
    ∧ dictLookup [(some "a", some ["2"])] (some "a") = some (some ["2"]) :=
  c9_last_occurrence_wins (some ":") "a:1\na:2\n" [(some "a", some ["2"])] "a" ["2"]
    (by decide) (by decide)

/-- C10: when the getent process exits with code 0 and its stdout is
empty, the module succeeds and returns `getent_<database>` as an empty
mapping, for every parameter combination (in particular even when a key
was supplied). -/
theorem c10_empty_stdout (p : Params) (b err : String) :
    runGetent p (some b) (.ok 0 "" err)
      = ⟨.exitJson (.direct true ("getent_" ++ p.database) []), true⟩ := by
  simp [runGetent, parseLines, splitlines, splitlinesAux]

end Getent
